import Mathlib

/-!
Verification of the bible_lsp core: the reference-segment parser
(`parse_reference_segments` in `book_reference_segment.rs`), the labeling
function (`BookReferenceSegments::label`), the corpus bounds queries
(`bible_api.rs`), the autocompletion state inference
(`parse_current_state` in `bible_lsp.rs`) and the candidate generator
(`give_suggestions` in `autocompletion.rs`).

Strings are modelled as `List Char`.  Rust panics (`.expect`, failing
`str::parse`) are modelled by `Option`: `none` is a panic.  `usize`
subtraction `x - 1` used for indexing is modelled by an indexing helper that
returns `none` for index `0` (in release builds the subtraction wraps to
`2^64 - 1`, which is out of bounds for every corpus).
-/

/-- Characters kept by the `non_segment_characters` regex `[^\d,:;-]+`
(everything else is stripped): digits, `,`, `:`, `;`, `-`. -/
def isSegKept (c : Char) : Bool := c.isDigit || c = ',' || c = ':' || c = ';' || c = '-'

/-- Model of `segment_input.replace("–", "-")`: swap the en-dash for the ASCII hyphen. -/
def replace_en_dash (l : List Char) : List Char := l.map (fun c => if c = '–' then '-' else c)

/-- Model of `re::non_segment_characters().replace_all(input, "")`. -/
def strip_non_segment (l : List Char) : List Char := l.filter isSegKept

/-- The regex `re::trailing_non_digits()` is `(\D+$)`; replacing it with `""` drops the
trailing run of non-digit characters. -/
def drop_trailing_non_digits (l : List Char) : List Char :=
  (l.reverse.dropWhile (fun c => !c.isDigit)).reverse

/-- The `segment_splitters` regex `(,|;)`. -/
def isSplitter (c : Char) : Bool := c = ',' || c = ';'

/-- Model of `Regex::split` on `(,|;)`: split the character list at every `,` or `;`. -/
def split_segments : List Char → List (List Char)
  | [] => [[]]
  | c :: rest =>
    if isSplitter c then [] :: split_segments rest
    else
      match split_segments rest with
      | [] => [[c]]
      | t :: ts => (c :: t) :: ts

/-- Rust `str::split_once(sep)`: split at the first occurrence of `sep`,
`none` when `sep` does not occur. -/
def split_once (sep : Char) : List Char → Option (List Char × List Char)
  | [] => none
  | c :: rest =>
    if c = sep then some ([], rest)
    else
      match split_once sep rest with
      | none => none
      | some (a, b) => some (c :: a, b)

def digitVal (c : Char) : Nat := c.toNat - 48

/-- Numeric value of a digit string (most significant digit first). -/
def strVal (l : List Char) : Nat := l.foldl (fun a c => 10 * a + digitVal c) 0

/-- Rust `str::parse::<usize>()` restricted to the segment alphabet: succeeds
exactly on a non-empty string of decimal digits.  `none` models the `Err`
that the parser turns into a panic via `.expect(DIGITS_ONLY_MSG)`. -/
def parse_usize (l : List Char) : Option Nat :=
  if l.isEmpty then none else if l.all Char.isDigit then some (strVal l) else none

/-- The `ChapterVerse` struct from `book_reference_segment.rs`. -/
structure ChapterVerse where
  chapter : Nat
  verse : Nat
deriving DecidableEq, Repr

/-- The `ChapterRange` struct from `book_reference_segment.rs`. -/
structure ChapterRange where
  chapter : Nat
  start_verse : Nat
  end_verse : Nat
deriving DecidableEq, Repr

/-- The `BookRange` struct from `book_reference_segment.rs`. -/
structure BookRange where
  start_chapter : Nat
  end_chapter : Nat
  start_verse : Nat
  end_verse : Nat
deriving DecidableEq, Repr

/-- The `BookReferenceSegment` enum. -/
inductive BookReferenceSegment where
  | chapterVerse : ChapterVerse → BookReferenceSegment
  | chapterRange : ChapterRange → BookReferenceSegment
  | bookRange : BookRange → BookReferenceSegment
deriving DecidableEq, Repr

open BookReferenceSegment

def get_starting_verse : BookReferenceSegment → Nat
  | chapterVerse cv => cv.verse
  | chapterRange cr => cr.start_verse
  | bookRange br => br.start_verse

def get_starting_chapter : BookReferenceSegment → Nat
  | chapterVerse cv => cv.chapter
  | chapterRange cr => cr.chapter
  | bookRange br => br.start_chapter

def get_ending_verse : BookReferenceSegment → Nat
  | chapterVerse cv => cv.verse
  | chapterRange cr => cr.end_verse
  | bookRange br => br.end_verse

def get_ending_chapter : BookReferenceSegment → Nat
  | chapterVerse cv => cv.chapter
  | chapterRange cr => cr.chapter
  | bookRange br => br.end_chapter

/-- One iteration of the `for range in ranges` loop of
`parse_reference_segments`: classify the token, produce a segment and the
updated running `chapter`.  `none` models the `.expect` panic on a failed
numeric conversion. -/
def parse_token (chapter : Nat) (tok : List Char) : Option (BookReferenceSegment × Nat) :=
  match split_once '-' tok with
  | some (left, right) =>
    match split_once ':' left, split_once ':' right with
    | some (ch1, v1), some (ch2, v2) =>
      match parse_usize ch2, parse_usize ch1, parse_usize v1, parse_usize v2 with
      | some c2, some c1, some sv, some ev =>
        some (bookRange ⟨c1, c2, sv, ev⟩, c2)
      | _, _, _, _ => none
    | some (ch1, v1), none =>
      match parse_usize ch1, parse_usize v1, parse_usize right with
      | some c1, some sv, some ev => some (chapterRange ⟨c1, sv, ev⟩, c1)
      | _, _, _ => none
    | none, some (ch2, v2) =>
      match parse_usize ch2, parse_usize left, parse_usize v2 with
      | some c2, some sv, some ev => some (bookRange ⟨chapter, c2, sv, ev⟩, c2)
      | _, _, _ => none
    | none, none =>
      match parse_usize left, parse_usize right with
      | some sv, some ev => some (chapterRange ⟨chapter, sv, ev⟩, chapter)
      | _, _ => none
  | none =>
    match split_once ':' tok with
    | some (ch, v) =>
      match parse_usize ch, parse_usize v with
      | some c, some vv => some (chapterVerse ⟨c, vv⟩, c)
      | _, _ => none
    | none =>
      match parse_usize tok with
      | some vv => some (chapterVerse ⟨chapter, vv⟩, chapter)
      | none => none

/-- The whole token loop, threading the running `chapter` variable. -/
def parse_tokens (chapter : Nat) : List (List Char) → Option (List BookReferenceSegment)
  | [] => some []
  | tok :: toks =>
    match parse_token chapter tok with
    | none => none
    | some (seg, chapter') =>
      match parse_tokens chapter' toks with
      | none => none
      | some segs => some (seg :: segs)

/-- Model of `parse_reference_segments` from `book_reference_segment.rs`: normalize the
en-dash, strip non-segment characters, strip trailing non-digits, split on
`,`/`;` and parse each token with the running chapter initialized to `1`. -/
def parse_reference_segments (segment_input : List Char) : Option (List BookReferenceSegment) :=
  parse_tokens 1
    (split_segments (drop_trailing_non_digits (strip_non_segment (replace_en_dash segment_input))))

/-- The decimal digit character for `d < 10` (used to model `format!("{}", n)`). -/
def decDigitChar : Nat → Char
  | 0 => '0' | 1 => '1' | 2 => '2' | 3 => '3' | 4 => '4'
  | 5 => '5' | 6 => '6' | 7 => '7' | 8 => '8' | 9 => '9'
  | _ => '*'

/-- Fuel-driven decimal rendering, most significant digit first. -/
def natDigitsGo : Nat → Nat → List Char
  | 0, _ => []
  | fuel + 1, n =>
    if n < 10 then [decDigitChar n]
    else natDigitsGo fuel (n / 10) ++ [decDigitChar (n % 10)]

/-- Decimal rendering of a `usize`, as produced by `format!("{}", n)`. -/
def natDigits (n : Nat) : List Char := natDigitsGo (n + 1) n

/-- The `next_seg` computation of `BookReferenceSegments::label`: render one
segment, abbreviated when `previous_chapter` equals the segment's (start)
chapter. -/
def render_segment (previous_chapter : Option Nat) : BookReferenceSegment → List Char
  | chapterVerse cv =>
    if previous_chapter = some cv.chapter then natDigits cv.verse
    else natDigits cv.chapter ++ ':' :: natDigits cv.verse
  | chapterRange cr =>
    if previous_chapter = some cr.chapter then
      natDigits cr.start_verse ++ '-' :: natDigits cr.end_verse
    else
      natDigits cr.chapter ++ ':' :: natDigits cr.start_verse ++ '-' :: natDigits cr.end_verse
  | bookRange br =>
    if previous_chapter = some br.start_chapter then
      natDigits br.start_verse ++ '-' :: natDigits br.end_chapter ++ ':' :: natDigits br.end_verse
    else
      natDigits br.start_chapter ++ ':' :: natDigits br.start_verse ++
        '-' :: natDigits br.end_chapter ++ ':' :: natDigits br.end_verse

/-- The loop of `BookReferenceSegments::label`, producing the `label_segments`
vector: a separator (`","` within a chapter, `"; "` on a chapter change,
compared against the segment's ending chapter) before every segment but the
first, then the rendered segment. -/
def label_go (previous_chapter : Option Nat) : List BookReferenceSegment → List (List Char)
  | [] => []
  | seg :: rest =>
    let next_seg := render_segment previous_chapter seg
    let ec := get_ending_chapter seg
    match previous_chapter with
    | none => next_seg :: label_go (some ec) rest
    | some prev =>
      (if prev = ec then [','] else [';', ' ']) :: next_seg :: label_go (some ec) rest

/-- Model of `BookReferenceSegments::label`: join the `label_segments` with `""`. -/
def label (segs : List BookReferenceSegment) : List Char := (label_go none segs).flatten

/-- Proof-side normal form: `label` after en-dash replacement and
non-segment-character stripping (the separators lose their space). -/
def clean_rest (previous_chapter : Nat) : List BookReferenceSegment → List Char
  | [] => []
  | seg :: rest =>
    (if previous_chapter = get_ending_chapter seg then [','] else [';']) ++
      render_segment (some previous_chapter) seg ++ clean_rest (get_ending_chapter seg) rest

/-- Proof-side normal form of the whole stripped label. -/
def clean_label : List BookReferenceSegment → List Char
  | [] => []
  | seg :: rest => render_segment none seg ++ clean_rest (get_ending_chapter seg) rest

/-- Proof-side normal form: the token list that splitting the stripped label
at `,`/`;` produces (all tokens after the first). -/
def token_rest (previous_chapter : Nat) : List BookReferenceSegment → List (List Char)
  | [] => []
  | seg :: rest =>
    render_segment (some previous_chapter) seg :: token_rest (get_ending_chapter seg) rest

/-- Model of `vec.get(i - 1)` where `i : usize`: for `i = 0` the release-build
subtraction wraps to `2^64 - 1`, which is out of bounds for every corpus, so
the lookup yields `None`. -/
def vecGetPred (l : List α) (i : Nat) : Option α := if i = 0 then none else l[i - 1]?

/-- Model of `BibleAPI::is_valid_book_chapter`: the corpus is modelled by its
`reference_array` (per-book list of per-chapter verse counts). -/
def is_valid_book_chapter (reference_array : List (List Nat)) (book chapter : Nat) : Bool :=
  match vecGetPred reference_array book with
  | some chapters => decide (chapter ≤ chapters.length)
  | none => false

/-- Model of `BibleAPI::is_valid_reference`. -/
def is_valid_reference (reference_array : List (List Nat)) (book chapter verse : Nat) : Bool :=
  match vecGetPred reference_array book with
  | none => false
  | some chapters =>
    match vecGetPred chapters chapter with
    | none => false
    | some verse_count => decide (verse ≤ verse_count)

/-- Model of `BibleAPI::get_book_chapter_count`. -/
def get_book_chapter_count (reference_array : List (List Nat)) (book : Nat) : Option Nat :=
  (vecGetPred reference_array book).map List.length

/-- Model of `BibleAPI::get_chapter_verse_count`. -/
def get_chapter_verse_count (reference_array : List (List Nat)) (book chapter : Nat) : Option Nat :=
  match vecGetPred reference_array book with
  | none => none
  | some chapters => vecGetPred chapters chapter

/-- The `AutocompletionEndingOperator` enum from `autocompletion.rs`. -/
inductive AutocompletionEndingOperator where
  | None
  | Chapter
  | Break
  | Through
deriving DecidableEq, Repr

/-- The `BookNameCompletion` struct. -/
structure BookNameCompletion where
  book_id : Nat
deriving DecidableEq, Repr

/-- The `ChapterCompletion` struct. -/
structure ChapterCompletion where
  book_id : Nat
  chapter : Nat
deriving DecidableEq, Repr

/-- The `VerseCompletion` struct. -/
structure VerseCompletion where
  book_id : Nat
  chapter : Nat
  verse : Nat
  segments : List BookReferenceSegment
  operator : AutocompletionEndingOperator
deriving DecidableEq, Repr

/-- The `BibleCompletion` enum. -/
inductive BibleCompletion where
  | bookName : BookNameCompletion → BibleCompletion
  | chapter : ChapterCompletion → BibleCompletion
  | verse : VerseCompletion → BibleCompletion
deriving DecidableEq, Repr

/-- The `AutocompleteState` enum. -/
inductive AutocompleteState where
  | BooksOnly
  | ChaptersOnly (book_id : Nat)
  | VersesOnly (book_id chapter : Nat)
  | ChaptersOrVerses (book_id chapter verse : Nat)
      (segments : List BookReferenceSegment) (operator : AutocompletionEndingOperator)
deriving DecidableEq, Repr

/-- Model of `suggest_all_books`: the 66 books in canonical id order. -/
def suggest_all_books : List BibleCompletion :=
  (List.range' 1 66).map (fun book_id => .bookName ⟨book_id⟩)

/-- Model of `AutocompleteState::give_suggestions`.  Here `none` models the
`.expect("Valid book id")` panic on an unknown book id; the out-of-range
chapter case returns `some []` as in the source. -/
def give_suggestions (reference_array : List (List Nat)) :
    AutocompleteState → Option (List BibleCompletion)
  | .BooksOnly => some suggest_all_books
  | .ChaptersOnly book_id =>
    match get_book_chapter_count reference_array book_id with
    | none => none
    | some chapter_count =>
      some ((List.range' 1 chapter_count).map (fun chapter => .chapter ⟨book_id, chapter⟩))
  | .VersesOnly book_id chapter =>
    match get_chapter_verse_count reference_array book_id chapter with
    | none => some []
    | some verse_count =>
      some ((List.range' 1 verse_count).map
        (fun verse => .verse ⟨book_id, chapter, verse, [], .Chapter⟩))
  | .ChaptersOrVerses book_id chapter verse segments operator =>
    match get_book_chapter_count reference_array book_id with
    | none => none
    | some chapter_count =>
      match get_chapter_verse_count reference_array book_id chapter with
      | none => some []
      | some verse_count =>
        some (((List.range' (verse + 1) (verse_count - verse)).map
            (fun v => .verse ⟨book_id, chapter, v, segments, operator⟩)) ++
          ((List.range' (chapter + 1) (chapter_count - chapter)).map
            (fun c => .chapter ⟨book_id, c⟩)))

def to_lowercase (l : List Char) : List Char := l.map Char.toLower

/-- Rust `trim_end_matches(".")`: drop every trailing `.`. -/
def trim_end_dots (l : List Char) : List Char := (l.reverse.dropWhile (fun c => c = '.')).reverse

/-- Association lookup in the `abbreviations_to_book_id` map. -/
def assoc_get : List (List Char × Nat) → List Char → Option Nat
  | [], _ => none
  | (k, v) :: rest, key => if k = key then some v else assoc_get rest key

/-- Model of `BibleAPI::get_book_id`: lowercase, strip trailing periods, look up. -/
def get_book_id (abbreviations_to_book_id : List (List Char × Nat)) (book : List Char) :
    Option Nat :=
  assoc_get abbreviations_to_book_id (trim_end_dots (to_lowercase book))

/-- The character class `[ \d,:;\-–]` of the `segment_characters` regex. -/
def isSegClassChar (c : Char) : Bool :=
  c = ' ' || c.isDigit || c = ',' || c = ':' || c = ';' || c = '-' || c = '–'

/-- Model of `re::segment_characters().find(..)`: first (leftmost, greedy) match of
`\.?[ \d,:;\-–]+`, returned as the matched substring. -/
def segment_characters_find : List Char → Option (List Char)
  | [] => none
  | c :: rest =>
    if c = '.' then
      match rest with
      | r :: _ =>
        if isSegClassChar r then some ('.' :: rest.takeWhile isSegClassChar)
        else segment_characters_find rest
      | [] => none
    else if isSegClassChar c then some ((c :: rest).takeWhile isSegClassChar)
    else segment_characters_find rest

/-- Model of `re::incomplete_segment_start().captures(..)` for `^ *(\d+)(:)? *$`:
returns the chapter number (group 1) and whether the colon (group 2) is
present. -/
def incomplete_segment_start (l : List Char) : Option (Nat × Bool) :=
  let l1 := l.dropWhile (fun c => c = ' ')
  let digits := l1.takeWhile Char.isDigit
  let l2 := l1.dropWhile Char.isDigit
  if digits.isEmpty then none
  else
    match l2 with
    | ':' :: rest => if rest.all (fun c => c = ' ') then some (strVal digits, true) else none
    | rest => if rest.all (fun c => c = ' ') then some (strVal digits, false) else none

/-- Rust `str::trim` restricted to the segment alphabet (the only whitespace a
segment match can contain is the space). -/
def trim_spaces (l : List Char) : List Char :=
  ((l.dropWhile (fun c => c = ' ')).reverse.dropWhile (fun c => c = ' ')).reverse

/-- All matches of the `chapter` regex `(\d+)(:|$)` in document order, as
(start offset, numeric value of group 1): a maximal digit run matches exactly
when it is followed by `:` (consumed) or ends the haystack. -/
def chapter_matches_go : Nat → Nat → List Char → List (Nat × Nat)
  | 0, _, _ => []
  | fuel + 1, pos, l =>
    match l with
    | [] => []
    | c :: rest =>
      if c.isDigit then
        let run := (c :: rest).takeWhile Char.isDigit
        let after := (c :: rest).dropWhile Char.isDigit
        match after with
        | [] => [(pos, strVal run)]
        | a :: after2 =>
          if a = ':' then
            (pos, strVal run) :: chapter_matches_go fuel (pos + run.length + 1) after2
          else chapter_matches_go fuel (pos + run.length) after
      else chapter_matches_go fuel (pos + 1) rest

/-- Model of `re::chapter().captures_iter(..).last()`. -/
def last_chapter_match (l : List Char) : Option (Nat × Nat) :=
  (chapter_matches_go (l.length + 1) 0 l).getLast?

/-- All matches of the `verse` regex `(\d+)([^:]|$)` in document order, as
(start offset, numeric value of group 1).  A maximal digit run at the end of
the haystack matches whole; one followed by a non-colon matches whole
(consuming the follower); one of length `≥ 2` followed by `:` matches via
backtracking with its last digit consumed by `[^:]`; a single digit before
`:` does not match. -/
def verse_matches_go : Nat → Nat → List Char → List (Nat × Nat)
  | 0, _, _ => []
  | fuel + 1, pos, l =>
    match l with
    | [] => []
    | c :: rest =>
      if c.isDigit then
        let run := (c :: rest).takeWhile Char.isDigit
        let after := (c :: rest).dropWhile Char.isDigit
        match after with
        | [] => [(pos, strVal run)]
        | a :: after2 =>
          if a = ':' then
            if 2 ≤ run.length then
              (pos, strVal run.dropLast) :: verse_matches_go fuel (pos + run.length) after
            else verse_matches_go fuel (pos + run.length) after
          else (pos, strVal run) :: verse_matches_go fuel (pos + run.length + 1) after2
      else verse_matches_go fuel (pos + 1) rest

/-- Model of `re::verse().captures_iter(..).last()`. -/
def last_verse_match (l : List Char) : Option (Nat × Nat) :=
  (verse_matches_go (l.length + 1) 0 l).getLast?

/-- Model of `parse_current_state` from `bible_lsp.rs`.  The compiled book regex is
abstracted by `book_find`, standing for
`api.book_abbreviation_regex().find_iter(text).last()` (last match as a
(start, end) span).  `none` models a panic in one of the `.expect` calls or
inside the segment parser. -/
def parse_current_state (abbreviations_to_book_id : List (List Char × Nat))
    (book_find : List Char → Option (Nat × Nat)) (text_before_cursor : List Char) :
    Option AutocompleteState :=
  match book_find text_before_cursor with
  | none => some .BooksOnly
  | some (book_start, book_end) =>
    let everything_after_book_name := text_before_cursor.drop book_end
    if everything_after_book_name.length = 0 then some .BooksOnly
    else
      match get_book_id abbreviations_to_book_id
          ((text_before_cursor.take book_end).drop book_start) with
      | none => some .BooksOnly
      | some book_id =>
        if everything_after_book_name = [' '] then some (.ChaptersOnly book_id)
        else
          match segment_characters_find everything_after_book_name with
          | none => some (.ChaptersOnly book_id)
          | some segment_match =>
            match incomplete_segment_start everything_after_book_name with
            | some (chapter_number, true) => some (.VersesOnly book_id chapter_number)
            | some (_, false) => some (.ChaptersOnly book_id)
            | none =>
              match parse_reference_segments segment_match with
              | none => none
              | some segments =>
                match (trim_spaces segment_match).getLast? with
                | none => none
                | some last_char =>
                  let operator : AutocompletionEndingOperator :=
                    if last_char = ':' then .Chapter
                    else if last_char = ',' ∨ last_char = ';' then .Break
                    else if last_char = '-' ∨ last_char = '–' then .Through
                    else .None
                  match segments.getLast? with
                  | none => none
                  | some _ =>
                    match last_chapter_match segment_match with
                    | none => none
                    | some (_, last_chapter) =>
                      match last_verse_match segment_match with
                      | none => none
                      | some (_, last_verse) =>
                        some (.ChaptersOrVerses book_id last_chapter last_verse
                          segments operator)

/-- The regex word-character class (ASCII fragment of `\w`). -/
def isWordChar (c : Char) : Bool := c.isAlphanum || c = '_'

/-- Case-insensitive prefix test: `key` (stored lowercase) against the text. -/
def starts_with_insensitive : List Char → List Char → Bool
  | [], _ => true
  | _ :: _, [] => false
  | k :: ks, t :: ts => k = t.toLower && starts_with_insensitive ks ts

/-- Leftmost-first alternation: the first key of the pattern that matches at
this position, returning its length. -/
def try_keys (keys : List (List Char)) (t : List Char) : Option Nat :=
  match keys with
  | [] => none
  | k :: ks => if starts_with_insensitive k t then some k.length else try_keys ks t

/-- All matches of the book pattern `\b((?i)k1|k2|...)\b\.?` in document
order as (start, end) spans: a key match preceded by start-of-text or a
non-word character, followed by end-of-text or a non-word character, with an
optional trailing `.` absorbed.  Matches are non-overlapping; scanning resumes
after each match. -/
def book_matches_go (keys : List (List Char)) :
    Nat → Nat → Option Char → List Char → List (Nat × Nat)
  | 0, _, _, _ => []
  | fuel + 1, pos, prev, t =>
    match t with
    | [] => []
    | c :: rest =>
      let boundary := match prev with | none => true | some p => !(isWordChar p)
      match (if boundary then try_keys keys t else none) with
      | some klen =>
        (match t.drop klen with
        | [] => [(pos, pos + klen)]
        | c2 :: _ =>
          if isWordChar c2 then book_matches_go keys fuel (pos + 1) (some c) rest
          else
            let consumed := if c2 = '.' then klen + 1 else klen
            (pos, pos + consumed) ::
              book_matches_go keys fuel (pos + consumed) ((t.take consumed).getLast?)
                (t.drop consumed))
      | none => book_matches_go keys fuel (pos + 1) (some c) rest

/-- Model of `api.book_abbreviation_regex().find_iter(text).last()` for the given
abbreviation keys. -/
def find_last_book_match (keys : List (List Char)) (text : List Char) : Option (Nat × Nat) :=
  (book_matches_go keys (text.length + 1) 0 none text).getLast?

/-- The separator class `[,:;\-–]` of the post-book reference regex. -/
def isSepClass (c : Char) : Bool := c = ',' || c = ':' || c = ';' || c = '-' || c = '–'

/-- The greedy `( *[,:;\-–] *\d+)*` loop of the post-book reference regex,
accumulating the matched length. -/
def post_book_loop : Nat → Nat → List Char → Nat
  | 0, acc, _ => acc
  | fuel + 1, acc, l =>
    let sp1 := l.takeWhile (fun c => c = ' ')
    let l1 := l.dropWhile (fun c => c = ' ')
    match l1 with
    | [] => acc
    | c :: rest =>
      if isSepClass c then
        let sp2 := rest.takeWhile (fun c => c = ' ')
        let r2 := rest.dropWhile (fun c => c = ' ')
        let ds := r2.takeWhile Char.isDigit
        if ds.isEmpty then acc
        else
          post_book_loop fuel (acc + sp1.length + 1 + sp2.length + ds.length) (r2.drop ds.length)
      else acc

/-- Model of `re::post_book_valid_reference_segment_characters().find(..)` for the
anchored regex `^ *\d+:\d+( *[,:;\-–] *\d+)*`: length of the match when the
mandatory ` *\d+:\d+` head is present. -/
def post_book_match_len (l : List Char) : Option Nat :=
  let sp := l.takeWhile (fun c => c = ' ')
  let l1 := l.dropWhile (fun c => c = ' ')
  let d1 := l1.takeWhile Char.isDigit
  let l2 := l1.dropWhile Char.isDigit
  if d1.isEmpty then none
  else
    match l2 with
    | ':' :: l3 =>
      let d2 := l3.takeWhile Char.isDigit
      let l4 := l3.dropWhile Char.isDigit
      if d2.isEmpty then none
      else some (post_book_loop (l.length + 1) (sp.length + d1.length + 1 + d2.length) l4)
    | _ => none

/-- A one-book corpus abbreviation table: the key `ephesians` mapping to the
canonical id 49. -/
def eph_abbrevs : List (List Char × Nat) := [("ephesians".data, 49)]

/-- The keys of the compiled book pattern for that table. -/
def eph_keys : List (List Char) := ["ephesians".data]

/-- The compiled-pattern last-match function for that table. -/
def eph_find : List Char → Option (Nat × Nat) := find_last_book_match eph_keys

/-- C3 counterexample: in a corpus whose book 1 has one chapter,
`is_valid_book_chapter 1 0` returns `true`, while the claim requires `false`
for chapter `0` (`0 < 1` fails the claimed lower bound). -/
theorem c3_chapter_zero_counterexample :
    is_valid_book_chapter [[5]] 1 0 = true ∧ ¬(1 ≤ 0) := by decide

/-- C3 (amended): for every book id present in the corpus,
`is_valid_book_chapter b c` is `true` exactly for `c ≤ chapter_count b` — the
lower bound `1 ≤ c` is not checked, so chapter `0` is also reported valid. -/
theorem c3_is_valid_book_chapter_iff
    (reference_array : List (List Nat)) (book chapter : Nat) (chapters : List Nat)
    (hb : 1 ≤ book) (hget : reference_array[book - 1]? = some chapters) :
    is_valid_book_chapter reference_array book chapter = true ↔ chapter ≤ chapters.length := by
  have hbook : book ≠ 0 := by omega
  simp [is_valid_book_chapter, vecGetPred, hbook, hget]

/-- Witness for `c3_is_valid_book_chapter_iff` at a concrete corpus. -/
theorem c3_is_valid_book_chapter_iff_witness :
    is_valid_book_chapter [[5], [3, 4]] 2 2 = true ↔ 2 ≤ [3, 4].length :=
  c3_is_valid_book_chapter_iff [[5], [3, 4]] 2 2 [3, 4] (by decide) (by decide)

/-- C10: for every book and chapter within corpus bounds, verse number `0` is
reported valid by `is_valid_reference` (the check is `verse <= verse_count`
with no lower bound). -/
theorem c10_is_valid_reference_verse_zero
    (reference_array : List (List Nat)) (book chapter : Nat) (chapters : List Nat)
    (hb : 1 ≤ book) (hget : reference_array[book - 1]? = some chapters)
    (hc1 : 1 ≤ chapter) (hc2 : chapter ≤ chapters.length) :
    is_valid_reference reference_array book chapter 0 = true := by
  have hbook : book ≠ 0 := by omega
  have hch : chapter ≠ 0 := by omega
  have hlt : chapter - 1 < chapters.length := by omega
  simp [is_valid_reference, vecGetPred, hbook, hch, hget, List.getElem?_eq_getElem hlt]

/-- Witness for `c10_is_valid_reference_verse_zero` at a concrete corpus. -/
theorem c10_is_valid_reference_verse_zero_witness :
    is_valid_reference [[5], [3, 4]] 2 1 0 = true :=
  c10_is_valid_reference_verse_zero [[5], [3, 4]] 2 1 [3, 4]
    (by decide) (by decide) (by decide) (by decide)

/-- C5 counterexample: for a book id whose chapter count is unknown (book 2 in
a one-book corpus), `give_suggestions` on `ChaptersOnly` panics
(`.expect("Valid book id")`, modelled `none`) instead of returning the empty
list claimed. -/
theorem c5_unknown_book_counterexample :
    give_suggestions [[5]] (.ChaptersOnly 2) = none ∧
      give_suggestions [[5]] (.ChaptersOnly 2) ≠ some [] := by decide

/-- C5 (amended): for `ChaptersOnly`, a known chapter count yields the chapter
candidates `1..=chapter_count` in ascending order; an unknown chapter count
panics (`none`) rather than yielding an empty result. -/
theorem c5_chapters_only_suggestions
    (reference_array : List (List Nat)) (book_id : Nat) :
    (∀ chapter_count,
        get_book_chapter_count reference_array book_id = some chapter_count →
        give_suggestions reference_array (.ChaptersOnly book_id) =
          some ((List.range' 1 chapter_count).map (fun chapter => .chapter ⟨book_id, chapter⟩))) ∧
    (get_book_chapter_count reference_array book_id = none →
        give_suggestions reference_array (.ChaptersOnly book_id) = none) := by
  constructor
  · intro chapter_count h
    simp [give_suggestions, h]
  · intro h
    simp [give_suggestions, h]

/-- Witness for `c5_chapters_only_suggestions` at a concrete corpus. -/
theorem c5_chapters_only_suggestions_witness :
    give_suggestions [[2], [3, 4, 5]] (.ChaptersOnly 2) =
      some [.chapter ⟨2, 1⟩, .chapter ⟨2, 2⟩, .chapter ⟨2, 3⟩] :=
  ((c5_chapters_only_suggestions [[2], [3, 4, 5]] 2).1 3 (by decide)).trans (by decide)

/-- C6: for `ChaptersOrVerses` with a corpus-valid book id, the result is the
verse candidates `(verse+1)..=verse_count` followed by the chapter candidates
`(chapter+1)..=chapter_count`, both ascending; an out-of-range chapter yields
the empty list. -/
theorem c6_chapters_or_verses_suggestions
    (reference_array : List (List Nat)) (book_id chapter verse : Nat)
    (segments : List BookReferenceSegment) (operator : AutocompletionEndingOperator)
    (chapter_count : Nat)
    (hcc : get_book_chapter_count reference_array book_id = some chapter_count) :
    (∀ verse_count,
        get_chapter_verse_count reference_array book_id chapter = some verse_count →
        give_suggestions reference_array
            (.ChaptersOrVerses book_id chapter verse segments operator) =
          some (((List.range' (verse + 1) (verse_count - verse)).map
              (fun v => .verse ⟨book_id, chapter, v, segments, operator⟩)) ++
            ((List.range' (chapter + 1) (chapter_count - chapter)).map
              (fun c => .chapter ⟨book_id, c⟩)))) ∧
    (get_chapter_verse_count reference_array book_id chapter = none →
        give_suggestions reference_array
            (.ChaptersOrVerses book_id chapter verse segments operator) = some []) := by
  constructor
  · intro verse_count h
    simp [give_suggestions, hcc, h]
  · intro h
    simp [give_suggestions, hcc, h]

/-- Witness for `c6_chapters_or_verses_suggestions` at a concrete corpus:
book 2 has chapters with 3 and 4 verses; from chapter 1 verse 1 the candidates
are verses 2, 3 then chapter 2. -/
theorem c6_chapters_or_verses_suggestions_witness :
    give_suggestions [[2], [3, 4]] (.ChaptersOrVerses 2 1 1 [] .Through) =
      some [.verse ⟨2, 1, 2, [], .Through⟩, .verse ⟨2, 1, 3, [], .Through⟩,
            .chapter ⟨2, 2⟩] :=
  ((c6_chapters_or_verses_suggestions [[2], [3, 4]] 2 1 1 [] .Through 2 (by decide)).1
    3 (by decide)).trans (by decide)

/-- C4 counterexample: on the text `"Ephesians"` the single book-name match
spans the whole text (tail empty), and state inference returns `BooksOnly`,
not the claimed `ChaptersOnly` for the matched book (id 49). -/
theorem c4_empty_tail_counterexample :
    eph_find "Ephesians".data = some (0, 9) ∧ ("Ephesians".data).length = 9 ∧
      parse_current_state eph_abbrevs eph_find "Ephesians".data = some .BooksOnly ∧
      some AutocompleteState.BooksOnly ≠ some (AutocompleteState.ChaptersOnly 49) := by
  refine ⟨by decide, by decide, by decide, by decide⟩

/-- C4 (amended): whenever the last book-name match extends exactly to the end
of the text, state inference returns `BooksOnly` (the empty-tail early return
fires before the state is upgraded to `ChaptersOnly`). -/
theorem c4_empty_tail_books_only (abbreviations_to_book_id : List (List Char × Nat))
    (book_find : List Char → Option (Nat × Nat)) (text : List Char) (s : Nat)
    (h : book_find text = some (s, text.length)) :
    parse_current_state abbreviations_to_book_id book_find text = some .BooksOnly := by
  simp [parse_current_state, h, List.drop_length]

/-- Witness for `c4_empty_tail_books_only` on the text `"Ephesians"`. -/
theorem c4_empty_tail_books_only_witness :
    parse_current_state eph_abbrevs eph_find "Ephesians".data = some .BooksOnly :=
  c4_empty_tail_books_only eph_abbrevs eph_find "Ephesians".data 0 (by decide)

/-- C7: the four concrete state-inference cases.  `"Ephesians "` gives
`ChaptersOnly`; `"Ephesians 1:"` gives `VersesOnly` with chapter 1;
`"Ephesians 1"` gives `ChaptersOnly` (no colon, chapter not committed);
`"Ephesians 1:2-"` gives `ChaptersOrVerses` with ending operator `Through`. -/
theorem c7_infer_state_examples :
    parse_current_state eph_abbrevs eph_find "Ephesians ".data =
        some (.ChaptersOnly 49) ∧
      parse_current_state eph_abbrevs eph_find "Ephesians 1:".data =
        some (.VersesOnly 49 1) ∧
      parse_current_state eph_abbrevs eph_find "Ephesians 1".data =
        some (.ChaptersOnly 49) ∧
      parse_current_state eph_abbrevs eph_find "Ephesians 1:2-".data =
        some (.ChaptersOrVerses 49 1 2 [chapterVerse ⟨1, 2⟩] .Through) := by
  refine ⟨by decide, by decide, by decide, by decide⟩

/-- C2 demonstration (code bug): in the document `"Ephesians 1:2:3"`, the book
pattern matches `"Ephesians"`, the anchored post-book segment regex matches
the whole tail `" 1:2:3"` — which the scanner hands to the segment parser —
and the parser's numeric conversion fails (`"2:3".parse::<usize>()` panics),
so the fail-fast branch the claim calls unreachable is reached. -/
theorem c2_scanner_feeds_parser_panic :
    find_last_book_match eph_keys "Ephesians 1:2:3".data = some (0, 9) ∧
      post_book_match_len (("Ephesians 1:2:3".data).drop 9) =
        some (("Ephesians 1:2:3".data).drop 9).length ∧
      parse_reference_segments (("Ephesians 1:2:3".data).drop 9) = none := by
  refine ⟨by decide, by decide, by decide⟩

/-- C9 counterexample: for `"Ephesians 1:2 3"` the last chapter-bearing match
and the last verse-bearing match of the segment run `" 1:2 3"` start at the
same offset (5), yet inference reports verse 3 (the overlapping number) —
the claimed only-trust-the-chapter exception is not applied. -/
theorem c9_same_offset_counterexample :
    parse_current_state eph_abbrevs eph_find "Ephesians 1:2 3".data =
        some (.ChaptersOrVerses 49 3 3 [chapterVerse ⟨1, 23⟩] .None) ∧
      last_chapter_match " 1:2 3".data = some (5, 3) ∧
      last_verse_match " 1:2 3".data = some (5, 3) := by
  refine ⟨by decide, by decide, by decide⟩

/-- C9 (amended): whenever state inference yields `ChaptersOrVerses`, its
chapter is the value of the textually last chapter-bearing match of the
segment run and its verse the value of the textually last verse-bearing
match, unconditionally — no same-offset or stale-verse exception is applied
in this path. -/
theorem c9_last_matches_unconditional (abbreviations_to_book_id : List (List Char × Nat))
    (book_find : List Char → Option (Nat × Nat)) (text : List Char)
    (b ch v : Nat) (segs : List BookReferenceSegment) (op : AutocompletionEndingOperator)
    (h : parse_current_state abbreviations_to_book_id book_find text =
      some (.ChaptersOrVerses b ch v segs op)) :
    ∃ bs be run cs vs,
      book_find text = some (bs, be) ∧
        segment_characters_find (text.drop be) = some run ∧
        last_chapter_match run = some (cs, ch) ∧
        last_verse_match run = some (vs, v) := by
  unfold parse_current_state at h
  cases hbf : book_find text with
  | none => rw [hbf] at h; simp at h
  | some p =>
    obtain ⟨bs, be⟩ := p
    rw [hbf] at h
    simp only [] at h
    by_cases hlen : (text.drop be).length = 0
    · rw [if_pos hlen] at h; simp at h
    · rw [if_neg hlen] at h
      cases hid : get_book_id abbreviations_to_book_id ((text.take be).drop bs) with
      | none => rw [hid] at h; simp at h
      | some book_id =>
        rw [hid] at h
        simp only [] at h
        by_cases hsp : text.drop be = [' ']
        · rw [if_pos hsp] at h; simp at h
        · rw [if_neg hsp] at h
          cases hseg : segment_characters_find (text.drop be) with
          | none => rw [hseg] at h; simp at h
          | some run =>
            rw [hseg] at h
            simp only [] at h
            cases hinc : incomplete_segment_start (text.drop be) with
            | some q =>
              obtain ⟨n, flag⟩ := q
              rw [hinc] at h
              cases flag <;> simp at h
            | none =>
              rw [hinc] at h
              simp only [] at h
              cases hps : parse_reference_segments run with
              | none => rw [hps] at h; simp at h
              | some segments =>
                rw [hps] at h
                simp only [] at h
                cases htr : (trim_spaces run).getLast? with
                | none => rw [htr] at h; simp at h
                | some last_char =>
                  rw [htr] at h
                  simp only [] at h
                  cases hlast : segments.getLast? with
                  | none => rw [hlast] at h; simp at h
                  | some lseg =>
                    rw [hlast] at h
                    simp only [] at h
                    cases hcm : last_chapter_match run with
                    | none => rw [hcm] at h; simp at h
                    | some cp =>
                      obtain ⟨cs, lc⟩ := cp
                      rw [hcm] at h
                      simp only [] at h
                      cases hvm : last_verse_match run with
                      | none => rw [hvm] at h; simp at h
                      | some vp =>
                        obtain ⟨vs, lv⟩ := vp
                        rw [hvm] at h
                        simp only [] at h
                        simp only [Option.some.injEq,
                          AutocompleteState.ChaptersOrVerses.injEq] at h
                        obtain ⟨hb, hch, hv, hsegs, hop⟩ := h
                        exact ⟨bs, be, run, cs, vs, rfl, hseg,
                          by rw [hch] at hcm; exact hcm,
                          by rw [hv] at hvm; exact hvm⟩

/-- Witness for `c9_last_matches_unconditional` on `"Ephesians 1:2-"`. -/
theorem c9_last_matches_unconditional_witness :
    ∃ bs be run cs vs,
      eph_find "Ephesians 1:2-".data = some (bs, be) ∧
        segment_characters_find (("Ephesians 1:2-".data).drop be) = some run ∧
        last_chapter_match run = some (cs, 1) ∧
        last_verse_match run = some (vs, 2) :=
  c9_last_matches_unconditional eph_abbrevs eph_find "Ephesians 1:2-".data
    49 1 2 [chapterVerse ⟨1, 2⟩] .Through (by decide)

theorem decDigitChar_isDigit {d : Nat} (h : d < 10) : (decDigitChar d).isDigit = true := by
  interval_cases d <;> decide

theorem digitVal_decDigitChar {d : Nat} (h : d < 10) : digitVal (decDigitChar d) = d := by
  interval_cases d <;> decide

theorem natDigitsGo_all_digit :
    ∀ fuel n, n < fuel → (natDigitsGo fuel n).all Char.isDigit = true
  | 0, _, h => absurd h (by omega)
  | fuel + 1, n, h => by
    unfold natDigitsGo
    by_cases h10 : n < 10
    · simp [h10, decDigitChar_isDigit h10]
    · have hdiv : n / 10 < fuel := by
        have := Nat.div_lt_self (by omega : 0 < n) (by omega : 1 < 10)
        omega
      simp [h10, List.all_append, natDigitsGo_all_digit fuel (n / 10) hdiv,
        decDigitChar_isDigit (Nat.mod_lt n (by omega))]

theorem natDigitsGo_ne_nil : ∀ fuel n, n < fuel → natDigitsGo fuel n ≠ []
  | 0, _, h => absurd h (by omega)
  | fuel + 1, n, _ => by
    unfold natDigitsGo
    by_cases h10 : n < 10
    · simp [h10]
    · simp [h10]

theorem strVal_append_digit (l : List Char) (c : Char) :
    strVal (l ++ [c]) = 10 * strVal l + digitVal c := by
  unfold strVal
  rw [List.foldl_append]
  rfl

theorem strVal_natDigitsGo : ∀ fuel n, n < fuel → strVal (natDigitsGo fuel n) = n
  | 0, _, h => absurd h (by omega)
  | fuel + 1, n, h => by
    unfold natDigitsGo
    by_cases h10 : n < 10
    · simp only [if_pos h10]
      show strVal ([] ++ [decDigitChar n]) = n
      rw [strVal_append_digit, digitVal_decDigitChar h10]
      simp [strVal]
    · have hdiv : n / 10 < fuel := by
        have := Nat.div_lt_self (by omega : 0 < n) (by omega : 1 < 10)
        omega
      rw [if_neg h10, strVal_append_digit, strVal_natDigitsGo fuel (n / 10) hdiv,
        digitVal_decDigitChar (Nat.mod_lt n (by omega))]
      omega

theorem natDigits_all_digit (n : Nat) : (natDigits n).all Char.isDigit = true :=
  natDigitsGo_all_digit (n + 1) n (Nat.lt_succ_self n)

theorem natDigits_ne_nil (n : Nat) : natDigits n ≠ [] :=
  natDigitsGo_ne_nil (n + 1) n (Nat.lt_succ_self n)

theorem mem_natDigits_isDigit {c : Char} {n : Nat} (h : c ∈ natDigits n) : c.isDigit = true := by
  have := natDigits_all_digit n
  rw [List.all_eq_true] at this
  exact this c h

theorem parse_usize_natDigits (n : Nat) : parse_usize (natDigits n) = some n := by
  unfold parse_usize
  rw [if_neg (by simp [List.isEmpty_iff, natDigits_ne_nil]), if_pos (natDigits_all_digit n)]
  exact congrArg some (strVal_natDigitsGo (n + 1) n (Nat.lt_succ_self n))

theorem digit_ne {c d : Char} (h : c.isDigit = true) (hd : d.isDigit = false) : c ≠ d := by
  intro e
  subst e
  rw [h] at hd
  exact Bool.noConfusion hd

/-- Characters occurring in a rendered segment: digits, `:` or `-`. -/
def charOK (c : Char) : Bool := c.isDigit || c = ':' || c = '-'

theorem charOK_of_digit {c : Char} (h : c.isDigit = true) : charOK c = true := by
  simp [charOK, h]

theorem mem_render_charOK :
    ∀ (p : Option Nat) (s : BookReferenceSegment) (c : Char),
      c ∈ render_segment p s → charOK c = true := by
  intro p s c hc
  cases s <;> simp only [render_segment] at hc <;> split at hc <;>
    (try simp only [List.mem_append, List.mem_cons] at hc) <;>
    repeat' (first
      | (exact charOK_of_digit (mem_natDigits_isDigit hc))
      | (subst hc; decide)
      | (rcases hc with hc | hc))

theorem charOK_kept {c : Char} (h : charOK c = true) : isSegKept c = true := by
  simp only [charOK, Bool.or_eq_true] at h
  rcases h with (h | h) | h
  · simp [isSegKept, h]
  · simp only [decide_eq_true_eq] at h; subst h; decide
  · simp only [decide_eq_true_eq] at h; subst h; decide

theorem charOK_not_splitter {c : Char} (h : charOK c = true) : isSplitter c = false := by
  simp only [charOK, Bool.or_eq_true] at h
  rcases h with (h | h) | h
  · simp [isSplitter, digit_ne h (by decide : (',').isDigit = false),
      digit_ne h (by decide : (';').isDigit = false)]
  · simp only [decide_eq_true_eq] at h; subst h; decide
  · simp only [decide_eq_true_eq] at h; subst h; decide

theorem charOK_ne_en_dash {c : Char} (h : charOK c = true) : c ≠ '–' := by
  simp only [charOK, Bool.or_eq_true] at h
  rcases h with (h | h) | h
  · exact digit_ne h (by decide)
  · simp only [decide_eq_true_eq] at h; subst h; decide
  · simp only [decide_eq_true_eq] at h; subst h; decide

theorem replace_en_dash_id {l : List Char} (h : ∀ c ∈ l, c ≠ '–') : replace_en_dash l = l := by
  induction l with
  | nil => rfl
  | cons c rest ih =>
    unfold replace_en_dash
    simp only [List.map_cons]
    rw [if_neg (h c (List.mem_cons_self c rest))]
    exact congrArg (c :: ·) (ih (fun d hd => h d (List.mem_cons_of_mem c hd)))

theorem filter_kept_id {l : List Char} (h : ∀ c ∈ l, isSegKept c = true) :
    strip_non_segment l = l :=
  List.filter_eq_self.mpr h

theorem strip_render (p : Option Nat) (s : BookReferenceSegment) :
    strip_non_segment (replace_en_dash (render_segment p s)) = render_segment p s := by
  rw [replace_en_dash_id (fun c hc => charOK_ne_en_dash (mem_render_charOK p s c hc))]
  exact filter_kept_id (fun c hc => charOK_kept (mem_render_charOK p s c hc))

theorem split_once_none (sep : Char) :
    ∀ l : List Char, (∀ c ∈ l, c ≠ sep) → split_once sep l = none := by
  intro l h
  induction l with
  | nil => rfl
  | cons c rest ih =>
    unfold split_once
    rw [if_neg (h c (List.mem_cons_self c rest)), ih (fun d hd => h d (List.mem_cons_of_mem c hd))]

theorem split_once_append (sep : Char) :
    ∀ a b : List Char, (∀ c ∈ a, c ≠ sep) → split_once sep (a ++ sep :: b) = some (a, b) := by
  intro a
  induction a with
  | nil => intro b _; simp [split_once]
  | cons c a' ih =>
    intro b h
    show split_once sep (c :: (a' ++ sep :: b)) = some (c :: a', b)
    unfold split_once
    rw [if_neg (h c (List.mem_cons_self c a')), ih b (fun d hd => h d (List.mem_cons_of_mem c hd))]

theorem split_segments_nosplit :
    ∀ l : List Char, (∀ c ∈ l, isSplitter c = false) → split_segments l = [l] := by
  intro l h
  induction l with
  | nil => rfl
  | cons c rest ih =>
    unfold split_segments
    rw [if_neg (by simp [h c (List.mem_cons_self c rest)]),
      ih (fun d hd => h d (List.mem_cons_of_mem c hd))]

theorem split_segments_append :
    ∀ (a : List Char) (sep : Char) (b : List Char), (∀ c ∈ a, isSplitter c = false) →
      isSplitter sep = true → split_segments (a ++ sep :: b) = a :: split_segments b := by
  intro a
  induction a with
  | nil =>
    intro sep b _ hsep
    show split_segments (sep :: b) = [] :: split_segments b
    simp only [split_segments]
    rw [if_pos hsep]
  | cons c a' ih =>
    intro sep b h hsep
    show split_segments (c :: (a' ++ sep :: b)) = (c :: a') :: split_segments b
    simp only [split_segments]
    rw [if_neg (by simp [h c (List.mem_cons_self c a')]),
      ih sep b (fun d hd => h d (List.mem_cons_of_mem c hd)) hsep]

theorem clean_rest_cons (p : Nat) (seg : BookReferenceSegment)
    (rest : List BookReferenceSegment) :
    clean_rest p (seg :: rest) =
      (if p = get_ending_chapter seg then [','] else [';']) ++
        (render_segment (some p) seg ++ clean_rest (get_ending_chapter seg) rest) := by
  rw [clean_rest, List.append_assoc]

theorem strip_label_rest :
    ∀ (rest : List BookReferenceSegment) (p : Nat),
      strip_non_segment (replace_en_dash (label_go (some p) rest).flatten) = clean_rest p rest := by
  intro rest
  induction rest with
  | nil => intro p; rfl
  | cons seg rest' ih =>
    intro p
    show strip_non_segment (replace_en_dash
        ((if p = get_ending_chapter seg then [','] else [';', ' ']) ++
          (render_segment (some p) seg ++
            (label_go (some (get_ending_chapter seg)) rest').flatten)) ) = _
    unfold replace_en_dash strip_non_segment
    rw [List.map_append, List.filter_append, List.map_append, List.filter_append]
    show strip_non_segment (replace_en_dash (if p = get_ending_chapter seg then [','] else [';', ' '])) ++
      (strip_non_segment (replace_en_dash (render_segment (some p) seg)) ++
      strip_non_segment (replace_en_dash (label_go (some (get_ending_chapter seg)) rest').flatten)) = _
    rw [strip_render, ih (get_ending_chapter seg), clean_rest_cons]
    by_cases hp : p = get_ending_chapter seg
    · rw [if_pos hp, if_pos hp]
      rfl
    · rw [if_neg hp, if_neg hp]
      rfl

theorem strip_label (segs : List BookReferenceSegment) :
    strip_non_segment (replace_en_dash (label segs)) = clean_label segs := by
  cases segs with
  | nil => rfl
  | cons seg rest =>
    show strip_non_segment (replace_en_dash
        (render_segment none seg ++ (label_go (some (get_ending_chapter seg)) rest).flatten)) = _
    unfold replace_en_dash strip_non_segment
    rw [List.map_append, List.filter_append]
    show strip_non_segment (replace_en_dash (render_segment none seg)) ++
      strip_non_segment (replace_en_dash (label_go (some (get_ending_chapter seg)) rest).flatten) = _
    rw [strip_render, strip_label_rest rest (get_ending_chapter seg)]
    rfl

theorem natDigits_concat (n : Nat) :
    ∃ l d, natDigits n = l ++ [d] ∧ d.isDigit = true := by
  rcases List.eq_nil_or_concat (natDigits n) with h | ⟨l, d, h⟩
  · exact absurd h (natDigits_ne_nil n)
  · rw [List.concat_eq_append] at h
    refine ⟨l, d, h, mem_natDigits_isDigit (n := n) ?_⟩
    rw [h]
    exact List.mem_append_right l (List.mem_singleton_self d)

theorem drop_trailing_concat_digit (x : List Char) (d : Char) (hd : d.isDigit = true) :
    drop_trailing_non_digits (x ++ [d]) = x ++ [d] := by
  unfold drop_trailing_non_digits
  rw [List.reverse_append]
  rw [show List.reverse [d] = [d] from by simp]
  rw [List.singleton_append, List.dropWhile_cons]
  simp [hd]

theorem drop_trailing_append_digits (a : List Char) (n : Nat) :
    drop_trailing_non_digits (a ++ natDigits n) = a ++ natDigits n := by
  obtain ⟨l, d, h, hd⟩ := natDigits_concat n
  rw [h, ← List.append_assoc, drop_trailing_concat_digit (a ++ l) d hd]

theorem render_decomp (p : Option Nat) (s : BookReferenceSegment) :
    ∃ a n, render_segment p s = a ++ natDigits n := by
  cases s with
  | chapterVerse cv =>
    simp only [render_segment]
    split
    · exact ⟨[], cv.verse, rfl⟩
    · exact ⟨natDigits cv.chapter ++ [':'], cv.verse, by simp⟩
  | chapterRange cr =>
    simp only [render_segment]
    split
    · exact ⟨natDigits cr.start_verse ++ ['-'], cr.end_verse, by simp⟩
    · exact ⟨natDigits cr.chapter ++ [':'] ++ natDigits cr.start_verse ++ ['-'], cr.end_verse,
        by simp⟩
  | bookRange br =>
    simp only [render_segment]
    split
    · exact ⟨natDigits br.start_verse ++ ['-'] ++ natDigits br.end_chapter ++ [':'], br.end_verse,
        by simp⟩
    · exact ⟨natDigits br.start_chapter ++ [':'] ++ natDigits br.start_verse ++ ['-'] ++
        natDigits br.end_chapter ++ [':'], br.end_verse, by simp⟩

theorem clean_rest_decomp :
    ∀ (segs : List BookReferenceSegment) (p : Nat), segs ≠ [] →
      ∃ a n, clean_rest p segs = a ++ natDigits n := by
  intro segs
  induction segs with
  | nil => intro p h; exact absurd rfl h
  | cons seg rest ih =>
    intro p _
    rw [clean_rest_cons]
    cases rest with
    | nil =>
      obtain ⟨a, n, h⟩ := render_decomp (some p) seg
      refine ⟨(if p = get_ending_chapter seg then [','] else [';']) ++ a, n, ?_⟩
      rw [h]
      simp [clean_rest]
    | cons seg2 rest2 =>
      obtain ⟨a, n, h⟩ := ih (get_ending_chapter seg) (by simp)
      refine ⟨(if p = get_ending_chapter seg then [','] else [';']) ++
        render_segment (some p) seg ++ a, n, ?_⟩
      rw [h]
      simp [List.append_assoc]

theorem clean_label_decomp :
    ∀ segs : List BookReferenceSegment, segs ≠ [] →
      ∃ a n, clean_label segs = a ++ natDigits n := by
  intro segs h
  cases segs with
  | nil => exact absurd rfl h
  | cons seg rest =>
    show ∃ a n, render_segment none seg ++ clean_rest (get_ending_chapter seg) rest = a ++ natDigits n
    cases rest with
    | nil =>
      obtain ⟨a, n, hr⟩ := render_decomp none seg
      exact ⟨a, n, by rw [hr]; simp [clean_rest]⟩
    | cons seg2 rest2 =>
      obtain ⟨a, n, hr⟩ := clean_rest_decomp (seg2 :: rest2) (get_ending_chapter seg) (by simp)
      exact ⟨render_segment none seg ++ a, n, by rw [hr]; simp [List.append_assoc]⟩

theorem drop_trailing_clean_label (segs : List BookReferenceSegment) (h : segs ≠ []) :
    drop_trailing_non_digits (clean_label segs) = clean_label segs := by
  obtain ⟨a, n, e⟩ := clean_label_decomp segs h
  rw [e, drop_trailing_append_digits]

theorem render_not_splitter (p : Option Nat) (s : BookReferenceSegment) :
    ∀ c ∈ render_segment p s, isSplitter c = false :=
  fun c hc => charOK_not_splitter (mem_render_charOK p s c hc)

theorem split_clean_aux :
    ∀ (rest : List BookReferenceSegment) (p : Nat) (x : List Char),
      (∀ c ∈ x, isSplitter c = false) →
      split_segments (x ++ clean_rest p rest) = x :: token_rest p rest := by
  intro rest
  induction rest with
  | nil =>
    intro p x h
    show split_segments (x ++ clean_rest p []) = x :: token_rest p []
    rw [show clean_rest p [] = [] from rfl, List.append_nil, split_segments_nosplit x h]
    rfl
  | cons seg rest' ih =>
    intro p x h
    rw [clean_rest_cons]
    by_cases hp : p = get_ending_chapter seg
    · rw [if_pos hp]
      rw [show ([','] ++ (render_segment (some p) seg ++ clean_rest (get_ending_chapter seg) rest'))
          = ',' :: (render_segment (some p) seg ++ clean_rest (get_ending_chapter seg) rest')
          from rfl]
      rw [split_segments_append x ',' _ h (by decide)]
      rw [ih (get_ending_chapter seg) (render_segment (some p) seg)
        (render_not_splitter (some p) seg)]
      rfl
    · rw [if_neg hp]
      rw [show ([';'] ++ (render_segment (some p) seg ++ clean_rest (get_ending_chapter seg) rest'))
          = ';' :: (render_segment (some p) seg ++ clean_rest (get_ending_chapter seg) rest')
          from rfl]
      rw [split_segments_append x ';' _ h (by decide)]
      rw [ih (get_ending_chapter seg) (render_segment (some p) seg)
        (render_not_splitter (some p) seg)]
      rfl

theorem no_dash_natDigits (n : Nat) : ∀ c ∈ natDigits n, c ≠ '-' :=
  fun _ hc => digit_ne (mem_natDigits_isDigit hc) (by decide)

theorem no_colon_natDigits (n : Nat) : ∀ c ∈ natDigits n, c ≠ ':' :=
  fun _ hc => digit_ne (mem_natDigits_isDigit hc) (by decide)

theorem parse_token_render_none (ch0 : Nat) (s : BookReferenceSegment) :
    parse_token ch0 (render_segment none s) = some (s, get_ending_chapter s) := by
  cases s with
  | chapterVerse cv =>
    have hr : render_segment none (chapterVerse cv) =
        natDigits cv.chapter ++ ':' :: natDigits cv.verse := by
      simp [render_segment]
    have hd : split_once '-' (natDigits cv.chapter ++ ':' :: natDigits cv.verse) = none := by
      apply split_once_none
      intro c hc
      rcases (by simpa using hc :
          c ∈ natDigits cv.chapter ∨ c = ':' ∨ c ∈ natDigits cv.verse) with h | h | h
      · exact no_dash_natDigits _ c h
      · subst h; decide
      · exact no_dash_natDigits _ c h
    have hc : split_once ':' (natDigits cv.chapter ++ ':' :: natDigits cv.verse) =
        some (natDigits cv.chapter, natDigits cv.verse) :=
      split_once_append ':' _ _ (no_colon_natDigits _)
    rw [hr]
    simp [parse_token, hd, hc, parse_usize_natDigits, get_ending_chapter]
  | chapterRange cr =>
    have hr : render_segment none (chapterRange cr) =
        natDigits cr.chapter ++ ':' :: (natDigits cr.start_verse ++
          '-' :: natDigits cr.end_verse) := by
      simp [render_segment]
    have hd : split_once '-'
        (natDigits cr.chapter ++ ':' :: (natDigits cr.start_verse ++
          '-' :: natDigits cr.end_verse)) =
        some (natDigits cr.chapter ++ ':' :: natDigits cr.start_verse,
          natDigits cr.end_verse) := by
      rw [show natDigits cr.chapter ++ ':' :: (natDigits cr.start_verse ++
            '-' :: natDigits cr.end_verse) =
          (natDigits cr.chapter ++ ':' :: natDigits cr.start_verse) ++
            '-' :: natDigits cr.end_verse from by simp]
      apply split_once_append
      intro c hc
      rcases (by simpa using hc :
          c ∈ natDigits cr.chapter ∨ c = ':' ∨ c ∈ natDigits cr.start_verse) with h | h | h
      · exact no_dash_natDigits _ c h
      · subst h; decide
      · exact no_dash_natDigits _ c h
    have hcl : split_once ':' (natDigits cr.chapter ++ ':' :: natDigits cr.start_verse) =
        some (natDigits cr.chapter, natDigits cr.start_verse) :=
      split_once_append ':' _ _ (no_colon_natDigits _)
    have hcr : split_once ':' (natDigits cr.end_verse) = none :=
      split_once_none ':' _ (no_colon_natDigits _)
    rw [hr]
    simp [parse_token, hd, hcl, hcr, parse_usize_natDigits, get_ending_chapter]
  | bookRange br =>
    have hr : render_segment none (bookRange br) =
        natDigits br.start_chapter ++ ':' :: (natDigits br.start_verse ++
          '-' :: (natDigits br.end_chapter ++ ':' :: natDigits br.end_verse)) := by
      simp [render_segment]
    have hd : split_once '-'
        (natDigits br.start_chapter ++ ':' :: (natDigits br.start_verse ++
          '-' :: (natDigits br.end_chapter ++ ':' :: natDigits br.end_verse))) =
        some (natDigits br.start_chapter ++ ':' :: natDigits br.start_verse,
          natDigits br.end_chapter ++ ':' :: natDigits br.end_verse) := by
      rw [show natDigits br.start_chapter ++ ':' :: (natDigits br.start_verse ++
            '-' :: (natDigits br.end_chapter ++ ':' :: natDigits br.end_verse)) =
          (natDigits br.start_chapter ++ ':' :: natDigits br.start_verse) ++
            '-' :: (natDigits br.end_chapter ++ ':' :: natDigits br.end_verse) from by simp]
      apply split_once_append
      intro c hc
      rcases (by simpa using hc :
          c ∈ natDigits br.start_chapter ∨ c = ':' ∨ c ∈ natDigits br.start_verse) with h | h | h
      · exact no_dash_natDigits _ c h
      · subst h; decide
      · exact no_dash_natDigits _ c h
    have hcl : split_once ':' (natDigits br.start_chapter ++ ':' :: natDigits br.start_verse) =
        some (natDigits br.start_chapter, natDigits br.start_verse) :=
      split_once_append ':' _ _ (no_colon_natDigits _)
    have hcr : split_once ':' (natDigits br.end_chapter ++ ':' :: natDigits br.end_verse) =
        some (natDigits br.end_chapter, natDigits br.end_verse) :=
      split_once_append ':' _ _ (no_colon_natDigits _)
    rw [hr]
    simp [parse_token, hd, hcl, hcr, parse_usize_natDigits, get_ending_chapter]

theorem parse_token_render_some (p : Nat) (s : BookReferenceSegment) :
    parse_token p (render_segment (some p) s) = some (s, get_ending_chapter s) := by
  cases s with
  | chapterVerse cv =>
    by_cases hp : p = cv.chapter
    · have hr : render_segment (some p) (chapterVerse cv) = natDigits cv.verse := by
        simp [render_segment, hp]
      have hd : split_once '-' (natDigits cv.verse) = none :=
        split_once_none '-' _ (no_dash_natDigits _)
      have hc : split_once ':' (natDigits cv.verse) = none :=
        split_once_none ':' _ (no_colon_natDigits _)
      rw [hr]
      simp [parse_token, hd, hc, parse_usize_natDigits, get_ending_chapter, hp]
    · have hr : render_segment (some p) (chapterVerse cv) =
          render_segment none (chapterVerse cv) := by
        simp [render_segment, hp]
      rw [hr]
      exact parse_token_render_none p (chapterVerse cv)
  | chapterRange cr =>
    by_cases hp : p = cr.chapter
    · have hr : render_segment (some p) (chapterRange cr) =
          natDigits cr.start_verse ++ '-' :: natDigits cr.end_verse := by
        simp [render_segment, hp]
      have hd : split_once '-' (natDigits cr.start_verse ++ '-' :: natDigits cr.end_verse) =
          some (natDigits cr.start_verse, natDigits cr.end_verse) :=
        split_once_append '-' _ _ (no_dash_natDigits _)
      have hcl : split_once ':' (natDigits cr.start_verse) = none :=
        split_once_none ':' _ (no_colon_natDigits _)
      have hcr : split_once ':' (natDigits cr.end_verse) = none :=
        split_once_none ':' _ (no_colon_natDigits _)
      rw [hr]
      simp [parse_token, hd, hcl, hcr, parse_usize_natDigits, get_ending_chapter, hp]
    · have hr : render_segment (some p) (chapterRange cr) =
          render_segment none (chapterRange cr) := by
        simp [render_segment, hp]
      rw [hr]
      exact parse_token_render_none p (chapterRange cr)
  | bookRange br =>
    by_cases hp : p = br.start_chapter
    · have hr : render_segment (some p) (bookRange br) =
          natDigits br.start_verse ++
            '-' :: (natDigits br.end_chapter ++ ':' :: natDigits br.end_verse) := by
        simp [render_segment, hp]
      have hd : split_once '-'
          (natDigits br.start_verse ++
            '-' :: (natDigits br.end_chapter ++ ':' :: natDigits br.end_verse)) =
          some (natDigits br.start_verse,
            natDigits br.end_chapter ++ ':' :: natDigits br.end_verse) :=
        split_once_append '-' _ _ (no_dash_natDigits _)
      have hcl : split_once ':' (natDigits br.start_verse) = none :=
        split_once_none ':' _ (no_colon_natDigits _)
      have hcr : split_once ':' (natDigits br.end_chapter ++ ':' :: natDigits br.end_verse) =
          some (natDigits br.end_chapter, natDigits br.end_verse) :=
        split_once_append ':' _ _ (no_colon_natDigits _)
      rw [hr]
      simp [parse_token, hd, hcl, hcr, parse_usize_natDigits, get_ending_chapter, hp]
    · have hr : render_segment (some p) (bookRange br) =
          render_segment none (bookRange br) := by
        simp [render_segment, hp]
      rw [hr]
      exact parse_token_render_none p (bookRange br)

theorem parse_tokens_token_rest :
    ∀ (rest : List BookReferenceSegment) (p : Nat),
      parse_tokens p (token_rest p rest) = some rest := by
  intro rest
  induction rest with
  | nil => intro p; rfl
  | cons seg rest' ih =>
    intro p
    show parse_tokens p (render_segment (some p) seg :: token_rest (get_ending_chapter seg) rest') =
      some (seg :: rest')
    unfold parse_tokens
    rw [parse_token_render_some p seg]
    simp only []
    rw [ih (get_ending_chapter seg)]

theorem label_roundtrip (segs : List BookReferenceSegment) (h : segs ≠ []) :
    parse_reference_segments (label segs) = some segs := by
  cases segs with
  | nil => exact absurd rfl h
  | cons seg rest =>
    unfold parse_reference_segments
    rw [strip_label, drop_trailing_clean_label _ (by simp)]
    rw [show clean_label (seg :: rest) =
        render_segment none seg ++ clean_rest (get_ending_chapter seg) rest from rfl]
    rw [split_clean_aux rest (get_ending_chapter seg) (render_segment none seg)
      (render_not_splitter none seg)]
    unfold parse_tokens
    rw [parse_token_render_none 1 seg]
    simp only []
    rw [parse_tokens_token_rest rest (get_ending_chapter seg)]

theorem split_segments_ne_nil : ∀ l : List Char, split_segments l ≠ [] := by
  intro l
  induction l with
  | nil => simp [split_segments]
  | cons c rest ih =>
    unfold split_segments
    by_cases hc : isSplitter c = true
    · simp [hc]
    · rw [if_neg hc]
      match hrec : split_segments rest with
      | [] => exact absurd hrec ih
      | t :: ts => simp

theorem parse_tokens_cons_ne_nil (c : Nat) (tok : List Char) (toks : List (List Char))
    (S : List BookReferenceSegment) (h : parse_tokens c (tok :: toks) = some S) : S ≠ [] := by
  unfold parse_tokens at h
  cases hp : parse_token c tok with
  | none => rw [hp] at h; exact absurd h (by simp)
  | some pr =>
    obtain ⟨seg, c'⟩ := pr
    rw [hp] at h
    simp only [] at h
    cases hr : parse_tokens c' toks with
    | none => rw [hr] at h; exact absurd h (by simp)
    | some segs =>
      rw [hr] at h
      simp only [Option.some.injEq] at h
      rw [← h]
      simp

theorem parse_some_ne_nil (input : List Char) (S : List BookReferenceSegment)
    (h : parse_reference_segments input = some S) : S ≠ [] := by
  unfold parse_reference_segments at h
  cases htoks : split_segments
      (drop_trailing_non_digits (strip_non_segment (replace_en_dash input))) with
  | nil => exact absurd htoks (split_segments_ne_nil _)
  | cons tok toks =>
    rw [htoks] at h
    exact parse_tokens_cons_ne_nil 1 tok toks S h

/-- C1: parsing `"1:1-4,5-7,2:2-3:4,6"` yields exactly the four segments
ChapterRange(1,1-4), ChapterRange(1,5-7), BookRange(2:2-3:4), ChapterVerse(3,6)
in order: the running chapter starts at 1 and the trailing bare `6` inherits
chapter 3 from the preceding range's end chapter. -/
theorem c1_parse_reference_example :
    parse_reference_segments "1:1-4,5-7,2:2-3:4,6".data =
      some [chapterRange ⟨1, 1, 4⟩, chapterRange ⟨1, 5, 7⟩,
        bookRange ⟨2, 3, 2, 4⟩, chapterVerse ⟨3, 6⟩] := by decide

/-- C8: re-parsing the label of any parser-produced segment sequence
reproduces that sequence exactly (hence with identical ordered chapter/verse
bounds). -/
theorem c8_label_reparse (input : List Char) (S : List BookReferenceSegment)
    (h : parse_reference_segments input = some S) :
    parse_reference_segments (label S) = some S :=
  label_roundtrip S (parse_some_ne_nil input S h)

/-- Witness for `c8_label_reparse` on the input `"1:2-3,4; 5:6"`. -/
theorem c8_label_reparse_witness :
    parse_reference_segments
        (label [chapterRange ⟨1, 2, 3⟩, chapterVerse ⟨1, 4⟩, chapterVerse ⟨5, 6⟩]) =
      some [chapterRange ⟨1, 2, 3⟩, chapterVerse ⟨1, 4⟩, chapterVerse ⟨5, 6⟩] :=
  c8_label_reparse "1:2-3,4; 5:6".data
    [chapterRange ⟨1, 2, 3⟩, chapterVerse ⟨1, 4⟩, chapterVerse ⟨5, 6⟩] (by decide)
